import Mathlib

/-
  Verification development for the ParyavaranSahyog donation-tracking backend.

  Shallow embedding of src/main.py and src/schemas.py:
  - MongoDB ObjectId strings are embedded as the inductive `OId`:
    `OId.valid n` is a well-formed 24-hex-char ObjectId string denoting the
    store id `n`; `OId.malformed s` is any other string
    (`ObjectId.is_valid` is `OId.isValid`).
  - Collections are association lists `List (Nat × doc)` in insertion order,
    with store-generated ids drawn from a counter `nextId`
    (`create_document` appends and returns the fresh id; `get_documents`
    with the empty filter returns the whole list in insertion order —
    this Record Access Layer lives in database.py, which is not part of
    src/; it is modelled from the spec, section 4.1).
  - Python ints are `Int`; `//` (floor division) is `Int.fdiv`;
    `datetime.utcnow()` is an explicit `now : Int` argument.
  - `raise HTTPException(status, detail)` is `ApiError.http status detail`;
    an uncaught pydantic ValidationError is `ApiError.validation`
    (it carries no HTTP status: `httpStatus` returns `none` for it).
  - Python handlers that raise leave the store untouched, so each endpoint
    returns a pair of its result (or error) and the post-state.
-/

namespace ParyavaranSahyog

/-- A campaign/NGO identifier string as received over the wire: either a
well-formed ObjectId (carrying the store id it denotes) or a malformed
string. -/
inductive OId where
  | valid : Nat → OId
  | malformed : String → OId
deriving DecidableEq

/-- bson ObjectId.is_valid. -/
def OId.isValid : OId → Bool
  | OId.valid _ => true
  | OId.malformed _ => false

/-- schemas.NGO (pydantic model; also the stored document shape). -/
structure NGO where
  name : String
  registration_id : String
  category : String
  city : Option String := none
  state : Option String := none
  verified : Bool := false
deriving DecidableEq

/-- schemas.Campaign (pydantic model, as received by POST /api/campaigns
or built by seed). -/
structure Campaign where
  title : String
  ngo_id : OId
  domain : String
  goal_inr : Int
  raised_inr : Int := 0
  description : Option String := none
  city : Option String := none
  state : Option String := none
  milestones : Option (List String) := none
deriving DecidableEq

/-- The pydantic field constraints on Campaign: goal_inr ge=1,
raised_inr ge=0. FastAPI rejects a request body violating them before the
handler runs. -/
def Campaign.pydanticValid (c : Campaign) : Prop :=
  1 ≤ c.goal_inr ∧ 0 ≤ c.raised_inr

/-- A stored campaign document: the model fields plus the updated_at field
that the donation workflow $set-s (absent until the first update, the
store being schemaless). -/
structure CampaignDoc where
  title : String
  ngo_id : OId
  domain : String
  goal_inr : Int
  raised_inr : Int
  description : Option String
  city : Option String
  state : Option String
  milestones : Option (List String)
  updated_at : Option Int
deriving DecidableEq

/-- model_dump of a Campaign, as inserted into the store. -/
def Campaign.toDoc (c : Campaign) : CampaignDoc :=
  ⟨c.title, c.ngo_id, c.domain, c.goal_inr, c.raised_inr,
   c.description, c.city, c.state, c.milestones, none⟩

/-- schemas.Donation, as stored. -/
structure DonationDoc where
  campaign_id : OId
  donor_name : Option String
  amount_inr : Int
  payment_method : String
deriving DecidableEq

/-- schemas.Transaction, as stored. -/
structure TransactionDoc where
  donation_id : Nat
  tx_hash : String
  status : String
deriving DecidableEq

/-- schemas.Receipt, as stored. -/
structure ReceiptDoc where
  donation_id : Nat
  receipt_nft_id : Option String
  issued_at : Option Int
deriving DecidableEq

/-- The document store: the collections the handlers touch, in insertion
order, plus the fresh-id counter. -/
structure DB where
  ngos : List (Nat × NGO)
  campaigns : List (Nat × CampaignDoc)
  donations : List (Nat × DonationDoc)
  transactions : List (Nat × TransactionDoc)
  receipts : List (Nat × ReceiptDoc)
  nextId : Nat
deriving DecidableEq

/-- collection.find_one by _id: first document whose id matches. -/
def findById {α : Type} (l : List (Nat × α)) (n : Nat) : Option α :=
  match l with
  | [] => none
  | p :: rest => if p.1 = n then some p.2 else findById rest n

/-- Dictionary lookup keyed by the serialized id string: a malformed string
never matches a real id. -/
def findByOId {α : Type} (l : List (Nat × α)) : OId → Option α
  | OId.valid n => findById l n
  | OId.malformed _ => none

/-- collection.update_one by _id: rewrite the first document whose id
matches, leave the rest alone. -/
def updateById {α : Type} (l : List (Nat × α)) (n : Nat) (f : α → α) :
    List (Nat × α) :=
  match l with
  | [] => []
  | p :: rest => if p.1 = n then (p.1, f p.2) :: rest else p :: updateById rest n f

/-- Errors a handler can surface: `http s d` is raise HTTPException(s, d);
`validation` is an uncaught pydantic ValidationError. -/
inductive ApiError where
  | http : Nat → String → ApiError
  | validation : ApiError
deriving DecidableEq

/-- The HTTP status attached to an error: HTTPException carries one, an
uncaught ValidationError carries none (FastAPI renders it as a generic
server error, not a 4xx response). -/
def httpStatus : ApiError → Option Nat
  | ApiError.http s _ => some s
  | ApiError.validation => none

/-- main.DonationIn: the request body of POST /api/donations. Note it has
no ge constraint on amount_inr. -/
structure DonationIn where
  campaign_id : OId
  donor_name : Option String := none
  amount_inr : Int
  payment_method : String
deriving DecidableEq

/-- The JSON object returned by a successful POST /api/donations. -/
structure DonationResult where
  donation_id : Nat
  tx_hash : String
  receipt_id : Nat
  message : String
deriving DecidableEq

deriving instance DecidableEq for Except

/-- main.create_donation: validate the campaign reference, construct the
Donation entity (pydantic checks amount_inr ge=1 here, after the campaign
checks and before any write), insert it, $inc the campaign raised_inr and
$set updated_at, insert a Settled Transaction with a fabricated hash, and
insert a Receipt. The ObjectId drawn for the tx hash and the inserted
documents each consume one fresh id. -/
def createDonation (st : DB) (p : DonationIn) (now : Int) :
    Except ApiError DonationResult × DB :=
  match p.campaign_id with
  | OId.malformed _ => (Except.error (ApiError.http 400 "Invalid campaign id"), st)
  | OId.valid cid =>
    match findById st.campaigns cid with
    | none => (Except.error (ApiError.http 404 "Campaign not found"), st)
    | some _ =>
      if 1 ≤ p.amount_inr then
        let ddoc : DonationDoc :=
          ⟨OId.valid cid, p.donor_name, p.amount_inr, p.payment_method⟩
        let did := st.nextId
        let txHash := "0x" ++ toString (st.nextId + 1)
        let tdoc : TransactionDoc := ⟨did, txHash, "Settled"⟩
        let rdoc : ReceiptDoc := ⟨did, some ("nft-" ++ toString did), some now⟩
        (Except.ok ⟨did, txHash, st.nextId + 3, "Donation recorded with on-chain receipt"⟩,
         { st with
            donations := st.donations ++ [(did, ddoc)],
            campaigns := updateById st.campaigns cid
              (fun c => { c with raised_inr := c.raised_inr + p.amount_inr,
                                 updated_at := some now }),
            transactions := st.transactions ++ [(st.nextId + 2, tdoc)],
            receipts := st.receipts ++ [(st.nextId + 3, rdoc)],
            nextId := st.nextId + 4 })
      else (Except.error ApiError.validation, st)

/-- main.create_ngo: insert and return the new id. -/
def createNgo (st : DB) (n : NGO) : Nat × DB :=
  (st.nextId, { st with ngos := st.ngos ++ [(st.nextId, n)], nextId := st.nextId + 1 })

/-- main.create_campaign: reject when ngo_id is malformed or unmatched
(both HTTP 400 "NGO not found"), otherwise insert the model_dump. -/
def createCampaign (st : DB) (c : Campaign) : Except ApiError Nat × DB :=
  match c.ngo_id with
  | OId.malformed _ => (Except.error (ApiError.http 400 "NGO not found"), st)
  | OId.valid nid =>
    match findById st.ngos nid with
    | none => (Except.error (ApiError.http 400 "NGO not found"), st)
    | some _ =>
      (Except.ok st.nextId,
       { st with campaigns := st.campaigns ++ [(st.nextId, c.toDoc)],
                 nextId := st.nextId + 1 })

/-- The three demo NGOs inserted by main.seed. -/
def seedNgos : List NGO :=
  [⟨"Aranya Eco Foundation", "KA-REG-001", "Air", some "Bengaluru", some "Karnataka", true⟩,
   ⟨"JalRaksha Trust", "KA-REG-002", "Water", some "Bengaluru", some "Karnataka", true⟩,
   ⟨"Nirmal Waste Collective", "KA-REG-003", "Waste", some "Bengaluru", some "Karnataka", true⟩]

/-- main.seed: when the ngo collection is empty, insert the three demo
NGOs then the three demo campaigns referencing them; otherwise do
nothing. -/
def seedOp (st : DB) : DB :=
  match st.ngos with
  | _ :: _ => st
  | [] =>
    let i := st.nextId
    { st with
        ngos := st.ngos ++
          [(i, ⟨"Aranya Eco Foundation", "KA-REG-001", "Air", some "Bengaluru", some "Karnataka", true⟩),
           (i + 1, ⟨"JalRaksha Trust", "KA-REG-002", "Water", some "Bengaluru", some "Karnataka", true⟩),
           (i + 2, ⟨"Nirmal Waste Collective", "KA-REG-003", "Waste", some "Bengaluru", some "Karnataka", true⟩)],
        campaigns := st.campaigns ++
          [(i + 3, Campaign.toDoc ⟨"Air: Urban Tree Plantation", OId.valid i, "Air", 500000, 0,
              some "Plant and maintain native trees in urban hotspots.", none, none, none⟩),
           (i + 4, Campaign.toDoc ⟨"Water: Lake Restoration", OId.valid (i + 1), "Water", 800000, 0,
              some "Desilting and wetland buffer creation.", none, none, none⟩),
           (i + 5, Campaign.toDoc ⟨"Waste: Smart Segregation", OId.valid (i + 2), "Waste", 300000, 0,
              some "IoT bins and community awareness.", none, none, none⟩)],
        nextId := i + 6 }

/-- A serialized ledger row of GET /api/transactions: the transaction
fields plus the denormalized context fields, each omitted (none) when the
corresponding lookup misses. -/
structure LedgerRow where
  row_id : Nat
  donation_id : Nat
  tx_hash : String
  status : String
  amount_inr : Option Int
  campaign_title : Option String
  domain : Option String
  ngo_name : Option String
deriving DecidableEq

/-- The per-row join of main.list_transactions: attach amount from the
donation, title/domain from its campaign, and the NGO name, silently
omitting whatever does not resolve. -/
def ledgerRow (st : DB) (p : Nat × TransactionDoc) : LedgerRow :=
  let base : LedgerRow :=
    ⟨p.1, p.2.donation_id, p.2.tx_hash, p.2.status, none, none, none, none⟩
  match findById st.donations p.2.donation_id with
  | none => base
  | some d =>
    let b1 := { base with amount_inr := some d.amount_inr }
    match findByOId st.campaigns d.campaign_id with
    | none => b1
    | some camp =>
      let b2 := { b1 with campaign_title := some camp.title, domain := some camp.domain }
      match findByOId st.ngos camp.ngo_id with
      | none => b2
      | some ngo => { b2 with ngo_name := some ngo.name }

/-- Python items[-limit:] for an arbitrary integer limit: for a positive
limit the last limit elements, for limit = 0 the whole list, for a
negative limit it drops the first (-limit) elements instead. -/
def sliceFromNeg {α : Type} (limit : Int) (l : List α) : List α :=
  if 0 < limit then l.drop (l.length - limit.toNat) else l.drop (-limit).toNat

/-- main.list_transactions: slice items[-limit:], then emit rows newest
first (items[::-1]) with the two-hop join. -/
def listTransactions (st : DB) (limit : Int) : List LedgerRow :=
  ((sliceFromNeg limit st.transactions).reverse).map (ledgerRow st)

/-- First-occurrence deduplication with an accumulator of already-seen
keys: the order in which the aggregation groups are produced. -/
def firstKeysGo {α : Type} [DecidableEq α] : List α → List α → List α
  | [], _ => []
  | k :: ks, seen =>
    if k ∈ seen then firstKeysGo ks seen else k :: firstKeysGo ks (k :: seen)

/-- The distinct keys of a list in first-occurrence order. -/
def firstKeys {α : Type} [DecidableEq α] (l : List α) : List α :=
  firstKeysGo l []

/-- Sum of amount_inr over the donations whose campaign_id equals cid. -/
def donationSum (ds : List (Nat × DonationDoc)) (cid : OId) : Int :=
  ((ds.filter (fun p => p.2.campaign_id = cid)).map (fun p => p.2.amount_inr)).sum

/-- The $group stage of main.leaderboard: one row per distinct donation
campaign_id with the summed amount_inr. -/
def aggregateDonations (ds : List (Nat × DonationDoc)) : List (OId × Int) :=
  (firstKeys (ds.map (fun p => p.2.campaign_id))).map
    (fun cid => (cid, donationSum ds cid))

/-- ngo_points.setdefault(nid, 0); ngo_points[nid] += delta — an insertion
ordered dictionary update. -/
def bumpPoints : List (OId × Int) → OId → Int → List (OId × Int)
  | [], nid, delta => [(nid, delta)]
  | q :: rest, nid, delta =>
    if q.1 = nid then (q.1, q.2 + delta) :: rest else q :: bumpPoints rest nid delta

/-- The body of the aggregation loop of main.leaderboard: skip a row
whose campaign does not resolve, otherwise credit the owning NGO with
raised // 100 points. -/
def lbStep (st : DB) (pts : List (OId × Int)) (row : OId × Int) : List (OId × Int) :=
  match findByOId st.campaigns row.1 with
  | none => pts
  | some camp => bumpPoints pts camp.ngo_id (Int.fdiv row.2 100)

/-- The ngo_points dictionary of main.leaderboard: fold the aggregation
rows with lbStep, starting from the empty dictionary. -/
def leaderboardPoints (st : DB) : List (OId × Int) :=
  (aggregateDonations st.donations).foldl (lbStep st) []

/-- ngos.get(ngo_id, \x7b\x7d).get("name", "Unknown NGO"). -/
def ngoDisplayName (st : DB) (nid : OId) : String :=
  match findByOId st.ngos nid with
  | some n => n.name
  | none => "Unknown NGO"

/-- schemas.LeaderboardItem. -/
structure LeaderboardItem where
  entity : String
  eco_points : Int
deriving DecidableEq

/-- main.leaderboard: sort the ngo_points entries by points descending
(python sorted with reverse=True: stable, ties in insertion order) and
render each as an entity/eco_points row. -/
def leaderboardOp (st : DB) : List LeaderboardItem :=
  (List.insertionSort (fun p q : OId × Int => q.2 ≤ p.2) (leaderboardPoints st)).map
    (fun q => ⟨ngoDisplayName st q.1, q.2⟩)

/-- Modelled from the spec: the eco-points formula as the specification
states it — floor of (the sum of amount_inr over ALL donations whose
campaign_id resolves to a campaign owned by the NGO) divided by 100; the
floor is taken once, over the NGO-wide total. Written for comparison with
the code's leaderboardPoints. -/
def specEcoPoints (st : DB) (nid : OId) : Int :=
  Int.fdiv
    (((st.donations.filter
        (fun p => match findByOId st.campaigns p.2.campaign_id with
                  | some c => c.ngo_id = nid
                  | none => false)).map (fun p => p.2.amount_inr)).sum) 100

/-- The per-campaign points total the code actually awards an NGO: over
each of the NGO's campaigns, floor that campaign's donation total by 100,
then sum. -/
def ngoPointsSpec (st : DB) (nid : OId) : Int :=
  (((st.campaigns.filter (fun p => p.2.ngo_id = nid)).map
      (fun p => Int.fdiv (donationSum st.donations (OId.valid p.1)) 100)).sum)

/-- One API operation; the GET endpoints only read, so they leave the
store unchanged. -/
inductive ApiOp where
  | seedDemo : ApiOp
  | addNgo : NGO → ApiOp
  | addCampaign : Campaign → ApiOp
  | donate : DonationIn → Int → ApiOp
  | readNgos : ApiOp
  | readCampaigns : Option String → ApiOp
  | readDonations : ApiOp
  | readLedger : Int → ApiOp
  | readLeaderboard : ApiOp

/-- The store after one API operation. -/
def applyOp (st : DB) : ApiOp → DB
  | ApiOp.seedDemo => seedOp st
  | ApiOp.addNgo n => (createNgo st n).2
  | ApiOp.addCampaign c => (createCampaign st c).2
  | ApiOp.donate p now => (createDonation st p now).2
  | ApiOp.readNgos => st
  | ApiOp.readCampaigns _ => st
  | ApiOp.readDonations => st
  | ApiOp.readLedger _ => st
  | ApiOp.readLeaderboard => st

/-- A request FastAPI lets through to the handler: for a posted Campaign
body the pydantic field constraints hold; every other body carries no
numeric constraint. -/
def opValid : ApiOp → Prop
  | ApiOp.addCampaign c => c.pydanticValid
  | _ => True

/-- Every stored campaign has a nonnegative raised_inr. -/
def campaignsNonneg (st : DB) : Prop :=
  ∀ p ∈ st.campaigns, 0 ≤ p.2.raised_inr

/-- Association-list read of the points dictionary, 0 when absent. -/
def lookupPts : List (OId × Int) → OId → Int
  | [], _ => 0
  | q :: rest, nid => if q.1 = nid then q.2 else lookupPts rest nid

/-- Whether the points dictionary has a key. -/
def hasKey : List (OId × Int) → OId → Bool
  | [], _ => false
  | q :: rest, nid => q.1 = nid || hasKey rest nid

/-- The contribution of one aggregation row to one NGO's points. -/
def rowDelta (st : DB) (row : OId × Int) (nid : OId) : Int :=
  match findByOId st.campaigns row.1 with
  | some c => if c.ngo_id = nid then Int.fdiv row.2 100 else 0
  | none => 0

/-- The contribution of the aggregation row keyed cid to the NGO nid,
with the row's sum written out. -/
def aggDelta (st : DB) (nid cid : OId) : Int :=
  rowDelta st (cid, donationSum st.donations cid) nid

instance : IsTotal (OId × Int) (fun a b : OId × Int => b.2 ≤ a.2) :=
  ⟨fun a b => le_total b.2 a.2⟩

instance : IsTrans (OId × Int) (fun a b : OId × Int => b.2 ≤ a.2) :=
  ⟨fun _ _ _ h1 h2 => le_trans h2 h1⟩

/-! ### Concrete stores and payloads used by witnesses and counterexamples -/

/-- The single campaign document of exC1. -/
def cC1 : CampaignDoc :=
  ⟨"Air: Urban Tree Plantation", OId.valid 1, "Air", 500000, 0, none, none, none, none, none⟩

/-- A store with one NGO and one campaign, no donations yet. -/
def exC1 : DB :=
  { ngos := [(1, ⟨"Aranya Eco Foundation", "KA-REG-001", "Air", none, none, true⟩)],
    campaigns := [(2, cC1)],
    donations := [], transactions := [], receipts := [], nextId := 3 }

/-- A valid 1000 INR donation to campaign 2. -/
def pC1 : DonationIn := ⟨OId.valid 2, some "Asha", 1000, "upi"⟩

/-- A store with one NGO and one campaign, no donations yet. -/
def exC2 : DB :=
  { ngos := [(1, ⟨"JalRaksha Trust", "KA-REG-002", "Water", none, none, true⟩)],
    campaigns := [(2, ⟨"Water: Lake Restoration", OId.valid 1, "Water", 800000, 0, none, none, none, none, none⟩)],
    donations := [], transactions := [], receipts := [], nextId := 3 }

/-- A donation naming a malformed campaign id. -/
def pC2bad : DonationIn := ⟨OId.malformed "not-an-objectid", none, 500, "upi"⟩

/-- A donation naming a well-formed campaign id that matches nothing. -/
def pC2miss : DonationIn := ⟨OId.valid 99, none, 500, "upi"⟩

/-- A store with one NGO and one campaign, no donations yet. -/
def exC3 : DB :=
  { ngos := [(1, ⟨"Nirmal Waste Collective", "KA-REG-003", "Waste", none, none, true⟩)],
    campaigns := [(2, ⟨"Waste: Smart Segregation", OId.valid 1, "Waste", 300000, 0, none, none, none, none, none⟩)],
    donations := [], transactions := [], receipts := [], nextId := 3 }

/-- A valid 250 INR donation to campaign 2. -/
def pC3 : DonationIn := ⟨OId.valid 2, none, 250, "card"⟩

/-- The result returned for pC3 against exC3 (ids start at nextId = 3). -/
def rC3 : DonationResult := ⟨3, "0x4", 6, "Donation recorded with on-chain receipt"⟩

/-- The store exC3 after the pC3 donation at time 7. -/
def stC3 : DB := (createDonation exC3 pC3 7).2

/-- One NGO owning two campaigns, each of which received a 50 INR
donation: the code awards 50 // 100 + 50 // 100 = 0 points, while the
NGO-wide formula of the claim gives (50 + 50) // 100 = 1. -/
def exC4 : DB :=
  { ngos := [(1, ⟨"Green Earth Trust", "KA-REG-009", "Multi", none, none, true⟩)],
    campaigns :=
      [(2, ⟨"Tree Drive", OId.valid 1, "Air", 1000, 0, none, none, none, none, none⟩),
       (3, ⟨"Lake Drive", OId.valid 1, "Water", 1000, 0, none, none, none, none, none⟩)],
    donations :=
      [(10, ⟨OId.valid 2, none, 50, "upi"⟩),
       (11, ⟨OId.valid 3, none, 50, "upi"⟩)],
    transactions := [], receipts := [], nextId := 20 }

/-- One NGO whose single campaign received a single 50 INR donation:
zero eco points, yet the code emits the NGO. -/
def exC5 : DB :=
  { ngos := [(1, ⟨"Blue River Trust", "KA-REG-010", "Water", none, none, true⟩)],
    campaigns := [(2, ⟨"River Cleanup", OId.valid 1, "Water", 1000, 0, none, none, none, none, none⟩)],
    donations := [(10, ⟨OId.valid 2, none, 50, "upi"⟩)],
    transactions := [], receipts := [], nextId := 20 }

/-- A store holding exactly one transaction. -/
def exC6 : DB :=
  { ngos := [], campaigns := [],
    donations := [],
    transactions := [(7, ⟨3, "0x4", "Settled"⟩)],
    receipts := [], nextId := 8 }

/-- The single campaign document of exC7. -/
def cC7 : CampaignDoc := ⟨"Smog Watch", OId.valid 1, "Air", 1000, 0, none, none, none, none, none⟩

/-- A store with one NGO and one campaign, no donations yet. -/
def exC7 : DB :=
  { ngos := [(1, ⟨"Clean Air Works", "KA-REG-011", "Air", none, none, true⟩)],
    campaigns := [(2, cC7)],
    donations := [], transactions := [], receipts := [], nextId := 3 }

/-- A donation request whose amount_inr is 0: it passes the DonationIn
parse (no ge constraint there) and reaches the handler. -/
def pC7 : DonationIn := ⟨OId.valid 2, none, 0, "upi"⟩

/-- The single campaign document of exC8. -/
def cC8 : CampaignDoc := ⟨"Bin Network", OId.valid 1, "Waste", 1000, 0, none, none, none, none, none⟩

/-- A store with one NGO and one campaign, no donations yet. -/
def exC8 : DB :=
  { ngos := [(1, ⟨"Terra Guard", "KA-REG-012", "Waste", none, none, true⟩)],
    campaigns := [(2, cC8)],
    donations := [], transactions := [], receipts := [], nextId := 3 }

/-- A valid 700 INR donation to campaign 2 of exC8. -/
def pC8 : DonationIn := ⟨OId.valid 2, none, 700, "upi"⟩

/-- A store whose ngo collection is already non-empty. -/
def exC9 : DB :=
  { ngos := [(1, ⟨"Seeded NGO", "KA-REG-013", "Air", none, none, false⟩)],
    campaigns := [], donations := [], transactions := [], receipts := [], nextId := 2 }

/-! ### Store lemmas -/

theorem findById_append_left {α : Type} {l l2 : List (Nat × α)} {n : Nat} {c : α}
    (h : findById l n = some c) : findById (l ++ l2) n = some c := by
  induction l with
  | nil => simp [findById] at h
  | cons p rest ih =>
    rw [List.cons_append]
    simp only [findById] at h ⊢
    by_cases hp : p.1 = n
    · simpa [hp] using h
    · rw [if_neg hp] at h ⊢
      exact ih h

theorem findById_updateById {α : Type} (l : List (Nat × α)) (k : Nat) (f : α → α) (n : Nat) :
    findById (updateById l k f) n =
      if n = k then Option.map f (findById l n) else findById l n := by
  induction l with
  | nil => simp [findById, updateById]
  | cons p rest ih =>
    by_cases hpk : p.1 = k
    · by_cases hpn : p.1 = n
      · have hnk : n = k := by rw [← hpn, hpk]
        simp [updateById, findById, hpk, hpn, hnk]
      · have hnk : ¬ n = k := fun h => hpn (by rw [hpk, h])
        have hkn : ¬ k = n := fun h => hnk h.symm
        simp [updateById, findById, hpk, hpn, hnk, hkn]
    · by_cases hpn : p.1 = n
      · have hnk : ¬ n = k := fun h => hpk (by rw [hpn, h])
        simp [updateById, findById, hpk, hpn, hnk]
      · simp [updateById, findById, hpk, hpn, ih]

theorem findById_mem {α : Type} {l : List (Nat × α)} {n : Nat} {c : α}
    (h : findById l n = some c) : (n, c) ∈ l := by
  induction l with
  | nil => simp [findById] at h
  | cons p rest ih =>
    simp only [findById] at h
    by_cases hp : p.1 = n
    · rw [if_pos hp] at h
      have : p = (n, c) := by
        cases p with
        | mk a b =>
          simp only [Option.some.injEq] at h
          simp_all
      simp [this]
    · rw [if_neg hp] at h
      exact List.mem_cons_of_mem _ (ih h)

theorem findById_of_mem_nodup {α : Type} {l : List (Nat × α)} {n : Nat} {c : α}
    (hnd : (l.map Prod.fst).Nodup) (hmem : (n, c) ∈ l) : findById l n = some c := by
  induction l with
  | nil => simp at hmem
  | cons p rest ih =>
    simp only [List.map_cons, List.nodup_cons] at hnd
    rcases List.mem_cons.1 hmem with h | h
    · simp [findById, ← h]
    · have hp : ¬ p.1 = n := by
        intro he
        exact hnd.1 (he ▸ (List.mem_map_of_mem Prod.fst h))
      simp only [findById, if_neg hp]
      exact ih hnd.2 h

theorem mem_updateById_imp {α : Type} {l : List (Nat × α)} {k : Nat} {f : α → α}
    (P : α → Prop) (hl : ∀ p ∈ l, P p.2) (hf : ∀ v, P v → P (f v)) :
    ∀ q ∈ updateById l k f, P q.2 := by
  induction l with
  | nil => simp [updateById]
  | cons p rest ih =>
    intro q hq
    simp only [updateById] at hq
    by_cases hp : p.1 = k
    · rw [if_pos hp] at hq
      rcases List.mem_cons.1 hq with h | h
      · rw [h]; exact hf _ (hl p (List.mem_cons_self _ _))
      · exact hl q (List.mem_cons_of_mem _ h)
    · rw [if_neg hp] at hq
      rcases List.mem_cons.1 hq with h | h
      · rw [h]; exact hl p (List.mem_cons_self _ _)
      · exact ih (fun r hr => hl r (List.mem_cons_of_mem _ hr)) q h

/-! ### Points-dictionary lemmas -/

theorem lookupPts_bumpPoints (pts : List (OId × Int)) (k n : OId) (d : Int) :
    lookupPts (bumpPoints pts k d) n =
      if k = n then lookupPts pts n + d else lookupPts pts n := by
  induction pts with
  | nil =>
    by_cases hkn : k = n <;> simp [bumpPoints, lookupPts, hkn]
  | cons q rest ih =>
    obtain ⟨a, b⟩ := q
    by_cases hak : a = k
    · subst hak
      by_cases han : a = n
      · subst han
        simp [bumpPoints, lookupPts]
      · simp [bumpPoints, lookupPts, han]
    · by_cases han : a = n
      · subst han
        have hka : ¬ k = a := fun h => hak h.symm
        simp [bumpPoints, lookupPts, hak, hka]
      · simp [bumpPoints, lookupPts, hak, han, ih]

theorem hasKey_bumpPoints_self (pts : List (OId × Int)) (k : OId) (d : Int) :
    hasKey (bumpPoints pts k d) k = true := by
  induction pts with
  | nil => simp [bumpPoints, hasKey]
  | cons q rest ih =>
    by_cases hqk : q.1 = k
    · simp [bumpPoints, hqk, hasKey]
    · simp [bumpPoints, hqk, hasKey, ih]

theorem hasKey_bumpPoints_mono {pts : List (OId × Int)} {n : OId} (k : OId) (d : Int)
    (h : hasKey pts n = true) : hasKey (bumpPoints pts k d) n = true := by
  induction pts with
  | nil => simp [hasKey] at h
  | cons q rest ih =>
    simp only [hasKey, Bool.or_eq_true, decide_eq_true_eq] at h
    by_cases hqk : q.1 = k
    · rcases h with h | h
      · have hkn : k = n := by rw [← hqk, h]
        simp [bumpPoints, hqk, hasKey, hkn]
      · simp [bumpPoints, hqk, hasKey, h]
    · rcases h with h | h
      · simp only [bumpPoints, if_neg hqk]
        simp [hasKey, h]
      · simp only [bumpPoints, if_neg hqk]
        simp [hasKey, ih h]

theorem hasKey_iff_mem_keys (pts : List (OId × Int)) (n : OId) :
    hasKey pts n = true ↔ n ∈ pts.map Prod.fst := by
  induction pts with
  | nil => simp [hasKey]
  | cons q rest ih =>
    simp only [hasKey, Bool.or_eq_true, decide_eq_true_eq, List.map_cons, List.mem_cons, ih]
    constructor
    · rintro (h | h)
      · exact Or.inl h.symm
      · exact Or.inr h
    · rintro (h | h)
      · exact Or.inl h.symm
      · exact Or.inr h

theorem keys_bumpPoints (pts : List (OId × Int)) (k : OId) (d : Int) :
    (bumpPoints pts k d).map Prod.fst =
      if hasKey pts k then pts.map Prod.fst else pts.map Prod.fst ++ [k] := by
  induction pts with
  | nil => simp [bumpPoints, hasKey]
  | cons q rest ih =>
    by_cases hqk : q.1 = k
    · simp [bumpPoints, hasKey, hqk]
    · have : ¬ (q.1 = k) := hqk
      simp only [bumpPoints, if_neg hqk, hasKey, List.map_cons, ih]
      by_cases hk : hasKey rest k
      · simp [hk, hqk]
      · simp [hk, hqk]

theorem nodup_keys_bumpPoints {pts : List (OId × Int)} (k : OId) (d : Int)
    (h : (pts.map Prod.fst).Nodup) : ((bumpPoints pts k d).map Prod.fst).Nodup := by
  rw [keys_bumpPoints]
  by_cases hk : hasKey pts k
  · simp [hk, h]
  · have hkm : k ∉ pts.map Prod.fst := by
      intro hmem
      exact hk ((hasKey_iff_mem_keys pts k).2 hmem)
    simp only [hk, if_false, Bool.false_eq_true, List.nodup_append]
    refine ⟨h, List.nodup_singleton k, ?_⟩
    intro a ha hb
    rw [List.mem_singleton] at hb
    exact hkm (hb ▸ ha)

theorem lookupPts_of_mem_nodup {pts : List (OId × Int)} {q : OId × Int}
    (hnd : (pts.map Prod.fst).Nodup) (hmem : q ∈ pts) : lookupPts pts q.1 = q.2 := by
  induction pts with
  | nil => simp at hmem
  | cons p rest ih =>
    simp only [List.map_cons, List.nodup_cons] at hnd
    rcases List.mem_cons.1 hmem with h | h
    · simp [lookupPts, h]
    · have hp : ¬ p.1 = q.1 := by
        intro he
        exact hnd.1 (he ▸ (List.mem_map_of_mem Prod.fst h))
      simp only [lookupPts, if_neg hp]
      exact ih hnd.2 h

theorem hasKey_exists_mem {pts : List (OId × Int)} {n : OId}
    (h : hasKey pts n = true) : ∃ q ∈ pts, q.1 = n := by
  induction pts with
  | nil => simp [hasKey] at h
  | cons p rest ih =>
    simp only [hasKey, Bool.or_eq_true, decide_eq_true_eq] at h
    rcases h with h | h
    · exact ⟨p, List.mem_cons_self _ _, h⟩
    · rcases ih h with ⟨q, hq, hqn⟩
      exact ⟨q, List.mem_cons_of_mem _ hq, hqn⟩

/-! ### First-occurrence key lemmas -/

theorem mem_firstKeysGo {α : Type} [DecidableEq α] (l : List α) :
    ∀ (seen : List α) (x : α), x ∈ firstKeysGo l seen ↔ x ∈ l ∧ x ∉ seen := by
  induction l with
  | nil => intro seen x; simp [firstKeysGo]
  | cons k ks ih =>
    intro seen x
    by_cases hk : k ∈ seen
    · simp only [firstKeysGo, if_pos hk, ih, List.mem_cons]
      constructor
      · rintro ⟨h1, h2⟩; exact ⟨Or.inr h1, h2⟩
      · rintro ⟨h1 | h1, h2⟩
        · exact absurd (h1 ▸ hk) h2
        · exact ⟨h1, h2⟩
    · simp only [firstKeysGo, if_neg hk, List.mem_cons, ih, List.mem_cons]
      constructor
      · rintro (h | ⟨h1, h2⟩)
        · exact ⟨Or.inl h, h ▸ hk⟩
        · exact ⟨Or.inr h1, fun hs => h2 (Or.inr hs)⟩
      · rintro ⟨h1 | h1, h2⟩
        · exact Or.inl h1
        · by_cases hxk : x = k
          · exact Or.inl hxk
          · exact Or.inr ⟨h1, fun hs => (by
              rcases hs with hs | hs
              · exact hxk hs
              · exact h2 hs)⟩

theorem nodup_firstKeysGo {α : Type} [DecidableEq α] (l : List α) :
    ∀ seen : List α, (firstKeysGo l seen).Nodup := by
  induction l with
  | nil => intro seen; simp [firstKeysGo]
  | cons k ks ih =>
    intro seen
    by_cases hk : k ∈ seen
    · simpa [firstKeysGo, if_pos hk] using ih seen
    · simp only [firstKeysGo, if_neg hk, List.nodup_cons]
      refine ⟨fun hmem => ?_, ih (k :: seen)⟩
      have := (mem_firstKeysGo ks (k :: seen) k).1 hmem
      exact this.2 (List.mem_cons_self _ _)

theorem mem_firstKeys {α : Type} [DecidableEq α] (l : List α) (x : α) :
    x ∈ firstKeys l ↔ x ∈ l := by
  simp [firstKeys, mem_firstKeysGo]

theorem nodup_firstKeys {α : Type} [DecidableEq α] (l : List α) :
    (firstKeys l).Nodup :=
  nodup_firstKeysGo l []

/-! ### Leaderboard fold lemmas -/

theorem lookupPts_foldl (st : DB) (rows : List (OId × Int)) :
    ∀ (pts : List (OId × Int)) (n : OId),
      lookupPts (rows.foldl (lbStep st) pts) n =
        lookupPts pts n + ((rows.map (fun row => rowDelta st row n)).sum) := by
  induction rows with
  | nil => intro pts n; simp
  | cons row rest ih =>
    intro pts n
    simp only [List.foldl_cons, List.map_cons, List.sum_cons]
    rw [ih]
    cases hfind : findByOId st.campaigns row.1 with
    | none =>
      simp [lbStep, rowDelta, hfind]
    | some camp =>
      simp only [lbStep, rowDelta, hfind]
      rw [lookupPts_bumpPoints]
      by_cases hcn : camp.ngo_id = n
      · rw [if_pos hcn, if_pos hcn]; ring
      · rw [if_neg hcn, if_neg hcn]; ring

theorem hasKey_foldl_mono (st : DB) (rows : List (OId × Int)) :
    ∀ pts n, hasKey pts n = true → hasKey (rows.foldl (lbStep st) pts) n = true := by
  induction rows with
  | nil => intro pts n h; simpa using h
  | cons row rest ih =>
    intro pts n h
    simp only [List.foldl_cons]
    apply ih
    cases hfind : findByOId st.campaigns row.1 with
    | none => simpa [lbStep, hfind] using h
    | some camp =>
      simp only [lbStep, hfind]
      exact hasKey_bumpPoints_mono _ _ h

theorem hasKey_foldl_of_row (st : DB) (rows : List (OId × Int)) :
    ∀ pts n row, row ∈ rows →
      (∃ c, findByOId st.campaigns row.1 = some c ∧ c.ngo_id = n) →
      hasKey (rows.foldl (lbStep st) pts) n = true := by
  induction rows with
  | nil => intro pts n row h; simp at h
  | cons r rest ih =>
    intro pts n row hmem hres
    simp only [List.foldl_cons]
    rcases List.mem_cons.1 hmem with h | h
    · subst h
      rcases hres with ⟨c, hc, hcn⟩
      apply hasKey_foldl_mono
      simp only [lbStep, hc]
      rw [← hcn]
      exact hasKey_bumpPoints_self _ _ _
    · exact ih _ n row h hres

theorem nodup_keys_foldl (st : DB) (rows : List (OId × Int)) :
    ∀ pts, (pts.map Prod.fst).Nodup →
      (((rows.foldl (lbStep st) pts)).map Prod.fst).Nodup := by
  induction rows with
  | nil => intro pts h; simpa using h
  | cons row rest ih =>
    intro pts h
    simp only [List.foldl_cons]
    apply ih
    cases hfind : findByOId st.campaigns row.1 with
    | none => simpa [lbStep, hfind] using h
    | some camp =>
      simp only [lbStep, hfind]
      exact nodup_keys_bumpPoints _ _ h

/-! ### Donation-sum and sum-transfer lemmas -/

theorem donationSum_eq_zero_of_not_mem {ds : List (Nat × DonationDoc)} {cid : OId}
    (h : cid ∉ ds.map (fun p => p.2.campaign_id)) : donationSum ds cid = 0 := by
  unfold donationSum
  have hnil : ds.filter (fun p => p.2.campaign_id = cid) = [] := by
    rw [List.filter_eq_nil_iff]
    intro p hp
    simp only [decide_eq_true_eq]
    intro he
    exact h (he ▸ List.mem_map_of_mem _ hp)
  simp [hnil]

theorem sum_map_filter_of_zero {α : Type} (g : α → Int) (p : α → Bool) :
    ∀ K : List α, (∀ x ∈ K, p x = false → g x = 0) →
      (K.map g).sum = ((K.filter p).map g).sum := by
  intro K
  induction K with
  | nil => intro h; simp
  | cons x xs ih =>
    intro h
    cases hp : p x with
    | true =>
      simp only [List.map_cons, List.sum_cons, List.filter_cons, hp, if_true]
      rw [ih (fun y hy => h y (List.mem_cons_of_mem _ hy))]
    | false =>
      have hx : g x = 0 := h x (List.mem_cons_self _ _) hp
      simp only [List.map_cons, List.sum_cons, List.filter_cons, hp, hx]
      rw [ih (fun y hy => h y (List.mem_cons_of_mem _ hy))]
      simp

theorem sum_map_congr_nodup {α : Type} [DecidableEq α] (g : α → Int) {K L : List α}
    (hK : K.Nodup) (hL : L.Nodup)
    (h1 : ∀ x ∈ K, x ∉ L → g x = 0) (h2 : ∀ x ∈ L, x ∉ K → g x = 0) :
    (K.map g).sum = (L.map g).sum := by
  have e1 : (K.map g).sum = ((K.filter (fun x => decide (x ∈ L))).map g).sum := by
    apply sum_map_filter_of_zero
    intro x hx hpx
    apply h1 x hx
    intro hmem
    simp [hmem] at hpx
  have e2 : (L.map g).sum = ((L.filter (fun x => decide (x ∈ K))).map g).sum := by
    apply sum_map_filter_of_zero
    intro x hx hpx
    apply h2 x hx
    intro hmem
    simp [hmem] at hpx
  have hperm : (K.filter (fun x => decide (x ∈ L))).Perm (L.filter (fun x => decide (x ∈ K))) := by
    rw [List.perm_ext_iff_of_nodup (hK.filter _) (hL.filter _)]
    intro a
    simp only [List.mem_filter, decide_eq_true_eq]
    constructor
    · rintro ⟨ha, hb⟩; exact ⟨hb, ha⟩
    · rintro ⟨ha, hb⟩; exact ⟨hb, ha⟩
  rw [e1, e2, (hperm.map g).sum_eq]

/-! ### Leaderboard bridge lemmas -/

theorem lookupPts_leaderboardPoints (st : DB) (n : OId) :
    lookupPts (leaderboardPoints st) n =
      ((aggregateDonations st.donations).map (fun row => rowDelta st row n)).sum := by
  unfold leaderboardPoints
  rw [lookupPts_foldl]
  simp [lookupPts]

theorem sum_rowDelta_agg (st : DB) (n : OId) :
    ((aggregateDonations st.donations).map (fun row => rowDelta st row n)).sum =
      ((firstKeys (st.donations.map (fun p => p.2.campaign_id))).map (aggDelta st n)).sum := by
  unfold aggregateDonations aggDelta
  rw [List.map_map]
  rfl

theorem oid_valid_injective : Function.Injective OId.valid := by
  intro a b h
  simpa using h

theorem sum_aggDelta_eq_ngoPointsSpec (st : DB) (n : OId)
    (hnd : (st.campaigns.map Prod.fst).Nodup) :
    ((firstKeys (st.donations.map (fun p => p.2.campaign_id))).map (aggDelta st n)).sum =
      ngoPointsSpec st n := by
  have hLkeys : ((st.campaigns.filter (fun p => p.2.ngo_id = n)).map Prod.fst).Nodup :=
    List.Nodup.sublist (List.Sublist.map Prod.fst (List.filter_sublist _)) hnd
  have hLnodup :
      (((st.campaigns.filter (fun p => p.2.ngo_id = n)).map Prod.fst).map OId.valid).Nodup :=
    List.Nodup.map oid_valid_injective hLkeys
  have hstep1 :
      ((firstKeys (st.donations.map (fun p => p.2.campaign_id))).map (aggDelta st n)).sum =
        ((((st.campaigns.filter (fun p => p.2.ngo_id = n)).map Prod.fst).map OId.valid).map
          (aggDelta st n)).sum := by
    apply sum_map_congr_nodup (aggDelta st n) (nodup_firstKeys _) hLnodup
    · intro x hx hxL
      unfold aggDelta rowDelta
      cases hf : findByOId st.campaigns x with
      | none => rfl
      | some c =>
        by_cases hng : c.ngo_id = n
        · exfalso
          cases x with
          | malformed s => simp [findByOId] at hf
          | valid k =>
            have hkmem : (k, c) ∈ st.campaigns := findById_mem hf
            have hfmem : (k, c) ∈ st.campaigns.filter (fun p => p.2.ngo_id = n) :=
              List.mem_filter.2 ⟨hkmem, by simpa using hng⟩
            exact hxL (List.mem_map_of_mem OId.valid (List.mem_map_of_mem Prod.fst hfmem))
        · simp [hng]
    · intro x hx hxK
      rcases List.mem_map.1 hx with ⟨k, hk, hvk⟩
      rcases List.mem_map.1 hk with ⟨p, hp, hfk⟩
      have hpc : p ∈ st.campaigns := List.mem_of_mem_filter hp
      have hng : p.2.ngo_id = n := by
        have := (List.mem_filter.1 hp).2
        simpa using this
      have hzero : donationSum st.donations x = 0 := by
        apply donationSum_eq_zero_of_not_mem
        intro hmem
        exact hxK ((mem_firstKeys _ x).2 hmem)
      unfold aggDelta rowDelta
      have hfind : findByOId st.campaigns x = some p.2 := by
        rw [← hvk, ← hfk]
        simp only [findByOId]
        exact findById_of_mem_nodup hnd hpc
      rw [hfind]
      simp [hng, hzero, Int.zero_fdiv]
  have hstep2 :
      ((((st.campaigns.filter (fun p => p.2.ngo_id = n)).map Prod.fst).map OId.valid).map
          (aggDelta st n)).sum = ngoPointsSpec st n := by
    unfold ngoPointsSpec
    rw [List.map_map, List.map_map]
    apply congrArg
    apply List.map_congr_left
    intro p hp
    have hpc : p ∈ st.campaigns := List.mem_of_mem_filter hp
    have hng : p.2.ngo_id = n := by
      have := (List.mem_filter.1 hp).2
      simpa using this
    have hfind : findById st.campaigns p.1 = some p.2 := findById_of_mem_nodup hnd hpc
    simp only [Function.comp_apply]
    unfold aggDelta rowDelta
    simp only [findByOId, hfind, hng, if_true]
  rw [hstep1, hstep2]

/-! ### createDonation case analysis -/

theorem createDonation_state_cases (st : DB) (p : DonationIn) (now : Int) :
    ((createDonation st p now).2 = st) ∨
    (∃ cid, p.campaign_id = OId.valid cid ∧ 1 ≤ p.amount_inr ∧
      (createDonation st p now).2 =
        { st with
            donations := st.donations ++
              [(st.nextId, ⟨OId.valid cid, p.donor_name, p.amount_inr, p.payment_method⟩)],
            campaigns := updateById st.campaigns cid
              (fun c => { c with raised_inr := c.raised_inr + p.amount_inr,
                                 updated_at := some now }),
            transactions := st.transactions ++
              [(st.nextId + 2, ⟨st.nextId, "0x" ++ toString (st.nextId + 1), "Settled"⟩)],
            receipts := st.receipts ++
              [(st.nextId + 3, ⟨st.nextId, some ("nft-" ++ toString st.nextId), some now⟩)],
            nextId := st.nextId + 4 }) := by
  cases hcid : p.campaign_id with
  | malformed s =>
    left
    simp [createDonation, hcid]
  | valid cid =>
    cases hfind : findById st.campaigns cid with
    | none =>
      left
      simp [createDonation, hcid, hfind]
    | some c0 =>
      by_cases ha : 1 ≤ p.amount_inr
      · right
        refine ⟨cid, rfl, ha, ?_⟩
        simp [createDonation, hcid, hfind, ha]
      · left
        simp [createDonation, hcid, hfind, ha]

/-! ### Claim theorems -/

/-- C1: a POST /api/donations request whose campaign_id resolves to an
existing campaign and whose amount_inr is ≥ 1 succeeds, and afterwards the
referenced campaign's raised_inr equals its prior value plus amount_inr
(updated_at is also set to the call time). -/
theorem C1_donation_increments_raised (st : DB) (p : DonationIn) (now : Int)
    (cid : Nat) (c : CampaignDoc)
    (hc : p.campaign_id = OId.valid cid)
    (hf : findById st.campaigns cid = some c)
    (ha : 1 ≤ p.amount_inr) :
    (createDonation st p now).1 =
      Except.ok ⟨st.nextId, "0x" ++ toString (st.nextId + 1), st.nextId + 3,
        "Donation recorded with on-chain receipt"⟩ ∧
    findById ((createDonation st p now).2).campaigns cid =
      some { c with raised_inr := c.raised_inr + p.amount_inr,
                    updated_at := some now } := by
  unfold createDonation
  rw [hc]
  simp only [hf]
  rw [if_pos ha]
  refine ⟨rfl, ?_⟩
  simp only
  rw [findById_updateById, if_pos rfl, hf]
  rfl

/-- Witness for C1: the 1000 INR donation pC1 against exC1 at time 5. -/
theorem C1_witness :
    (pC1.campaign_id = OId.valid 2 ∧ findById exC1.campaigns 2 = some cC1 ∧
      (1 : Int) ≤ pC1.amount_inr) ∧
    ((createDonation exC1 pC1 5).1 =
        Except.ok ⟨exC1.nextId, "0x" ++ toString (exC1.nextId + 1), exC1.nextId + 3,
          "Donation recorded with on-chain receipt"⟩ ∧
      findById ((createDonation exC1 pC1 5).2).campaigns 2 =
        some { cC1 with raised_inr := cC1.raised_inr + pC1.amount_inr,
                        updated_at := some 5 }) :=
  ⟨⟨rfl, by decide, by decide⟩,
   C1_donation_increments_raised exC1 pC1 5 2 cC1 rfl (by decide) (by decide)⟩

/-- C2: a POST /api/donations request whose campaign_id is malformed fails
with HTTP 400 (InvalidReference, bad-request class) and leaves the store
untouched, and one whose campaign_id is well-formed but unmatched fails
with HTTP 404 (NotFound) and leaves the store untouched — so no Donation,
Transaction or Receipt is created and no raised_inr changes. -/
theorem C2_invalid_or_missing_reference (st : DB) (p : DonationIn) (now : Int) :
    (∀ s, p.campaign_id = OId.malformed s →
      createDonation st p now = (Except.error (ApiError.http 400 "Invalid campaign id"), st)) ∧
    (∀ cid, p.campaign_id = OId.valid cid → findById st.campaigns cid = none →
      createDonation st p now = (Except.error (ApiError.http 404 "Campaign not found"), st)) := by
  constructor
  · intro s hs
    unfold createDonation
    rw [hs]
  · intro cid hc hn
    unfold createDonation
    rw [hc]
    simp only [hn]

/-- Witness for C2: pC2bad (malformed id) and pC2miss (unmatched id 99)
against exC2. -/
theorem C2_witness :
    (pC2bad.campaign_id = OId.malformed "not-an-objectid" ∧
      createDonation exC2 pC2bad 0 =
        (Except.error (ApiError.http 400 "Invalid campaign id"), exC2)) ∧
    (pC2miss.campaign_id = OId.valid 99 ∧ findById exC2.campaigns 99 = none ∧
      createDonation exC2 pC2miss 0 =
        (Except.error (ApiError.http 404 "Campaign not found"), exC2)) :=
  ⟨⟨rfl, (C2_invalid_or_missing_reference exC2 pC2bad 0).1 _ rfl⟩,
   ⟨rfl, by decide, (C2_invalid_or_missing_reference exC2 pC2miss 0).2 99 rfl (by decide)⟩⟩

/-- C3: every successful POST /api/donations call appends exactly one
Donation, exactly one Transaction with status "Settled", and exactly one
Receipt, and both the Transaction and the Receipt carry donation_id equal
to the id assigned to the new Donation (which is also the returned
donation_id). -/
theorem C3_success_creates_linked_triple (st : DB) (p : DonationIn) (now : Int)
    (r : DonationResult) (st2 : DB)
    (h : createDonation st p now = (Except.ok r, st2)) :
    r.donation_id = st.nextId ∧
    st2.donations = st.donations ++
      [(st.nextId, ⟨p.campaign_id, p.donor_name, p.amount_inr, p.payment_method⟩)] ∧
    st2.transactions = st.transactions ++
      [(st.nextId + 2, ⟨r.donation_id, r.tx_hash, "Settled"⟩)] ∧
    st2.receipts = st.receipts ++
      [(st.nextId + 3, ⟨r.donation_id, some ("nft-" ++ toString r.donation_id), some now⟩)] := by
  cases hcid : p.campaign_id with
  | malformed s =>
    simp only [createDonation, hcid] at h
    exact absurd (congrArg Prod.fst h) (by simp)
  | valid cid =>
    simp only [createDonation, hcid] at h
    cases hfind : findById st.campaigns cid with
    | none =>
      simp only [hfind] at h
      exact absurd (congrArg Prod.fst h) (by simp)
    | some c0 =>
      simp only [hfind] at h
      by_cases ha : 1 ≤ p.amount_inr
      · rw [if_pos ha] at h
        simp only [Prod.mk.injEq, Except.ok.injEq] at h
        obtain ⟨h1, h2⟩ := h
        subst h1
        subst h2
        exact ⟨rfl, rfl, rfl, rfl⟩
      · rw [if_neg ha] at h
        exact absurd (congrArg Prod.fst h) (by simp)

/-- Witness for C3: the pC3 donation against exC3 at time 7 produces the
triple with ids 3 (donation), 5 (transaction), 6 (receipt). -/
theorem C3_witness :
    createDonation exC3 pC3 7 = (Except.ok rC3, stC3) ∧
    (rC3.donation_id = exC3.nextId ∧
      stC3.donations = exC3.donations ++
        [(exC3.nextId, ⟨pC3.campaign_id, pC3.donor_name, pC3.amount_inr, pC3.payment_method⟩)] ∧
      stC3.transactions = exC3.transactions ++
        [(exC3.nextId + 2, ⟨rC3.donation_id, rC3.tx_hash, "Settled"⟩)] ∧
      stC3.receipts = exC3.receipts ++
        [(exC3.nextId + 3, ⟨rC3.donation_id, some ("nft-" ++ toString rC3.donation_id), some 7⟩)]) :=
  ⟨by decide, C3_success_creates_linked_triple exC3 pC3 7 rC3 stC3 (by decide)⟩

/-- C7 counterexample: for the amount-0 request pC7 against exC7 (whose
campaign 2 exists), the call fails with a pydantic ValidationError raised
inside the handler; the error is not an HTTPException and carries no HTTP
status, so it surfaces as a server-error-class response, not the
4xx-class response the claim asserts. The store is unchanged. -/
theorem C7_counterexample :
    (createDonation exC7 pC7 0).1 = Except.error ApiError.validation ∧
    (createDonation exC7 pC7 0).2 = exC7 ∧
    httpStatus ApiError.validation = none := by decide

/-- C7 (amended): a donation whose campaign_id resolves but whose
amount_inr is below 1 fails with the pydantic ValidationError raised while
constructing the Donation entity — after the campaign checks, before any
write, so the store is unchanged — and that error carries no HTTP status
(it is not a 4xx HTTPException). -/
theorem C7_validation_error_no_writes (st : DB) (p : DonationIn) (now : Int)
    (cid : Nat) (c : CampaignDoc)
    (hc : p.campaign_id = OId.valid cid)
    (hf : findById st.campaigns cid = some c)
    (ha : p.amount_inr < 1) :
    createDonation st p now = (Except.error ApiError.validation, st) ∧
    httpStatus ApiError.validation = none := by
  constructor
  · unfold createDonation
    rw [hc]
    simp only [hf]
    rw [if_neg (not_le.2 ha)]
  · rfl

/-- Witness for C7 (amended): pC7 against exC7 at time 9. -/
theorem C7_witness :
    (pC7.campaign_id = OId.valid 2 ∧ findById exC7.campaigns 2 = some cC7 ∧
      pC7.amount_inr < 1) ∧
    (createDonation exC7 pC7 9 = (Except.error ApiError.validation, exC7) ∧
      httpStatus ApiError.validation = none) :=
  ⟨⟨rfl, by decide, by decide⟩,
   C7_validation_error_no_writes exC7 pC7 9 2 cC7 rfl (by decide) (by decide)⟩

/-- C6 counterexample: against a store holding one transaction, a
caller-supplied limit of 0 returns 1 row, not at most 0 rows — the slice
items[-0:] keeps the whole list, so the claim fails at the integer
limit N = 0. -/
theorem C6_counterexample :
    (listTransactions exC6 0).length = 1 ∧
    ¬ ((listTransactions exC6 0).length ≤ (0 : Int).toNat) := by decide

/-- C6 (amended): for every positive caller-supplied limit N, GET
/api/transactions returns at most N rows; reversing the response yields a
suffix of the full insertion-ordered row list (so the response is the last
rows, newest first), and the response holds exactly min N (number of
transactions) rows. -/
theorem C6_limit_pos_last_rows (st : DB) (N : Int) (h : 1 ≤ N) :
    (listTransactions st N).length ≤ N.toNat ∧
    (listTransactions st N).reverse <:+ st.transactions.map (ledgerRow st) ∧
    (listTransactions st N).length = min N.toNat st.transactions.length := by
  have hpos : 0 < N := lt_of_lt_of_le zero_lt_one h
  have hlen : (listTransactions st N).length =
      st.transactions.length - (st.transactions.length - N.toNat) := by
    simp [listTransactions, sliceFromNeg, if_pos hpos]
  refine ⟨?_, ?_, ?_⟩
  · rw [hlen]; omega
  · unfold listTransactions sliceFromNeg
    rw [if_pos hpos]
    rw [List.map_reverse, List.reverse_reverse]
    exact List.IsSuffix.map _ (List.drop_suffix _ _)
  · rw [hlen]
    rcases le_total N.toNat st.transactions.length with hc | hc
    · rw [min_eq_left hc]; omega
    · rw [min_eq_right hc]; omega

/-- Witness for C6 (amended) at exC6 with limit 1. -/
theorem C6_witness :
    (1 : Int) ≤ 1 ∧
    ((listTransactions exC6 1).length ≤ (1 : Int).toNat ∧
      (listTransactions exC6 1).reverse <:+ exC6.transactions.map (ledgerRow exC6) ∧
      (listTransactions exC6 1).length = min (1 : Int).toNat exC6.transactions.length) :=
  ⟨by decide, C6_limit_pos_last_rows exC6 1 (by decide)⟩

/-- C8: under any API operation whose request body passes the pydantic
gate, every campaign record present before the operation is still present
afterwards with a raised_inr that did not decrease — it is unchanged or
increased by the amount_inr of a donation recorded in the resulting store
(that amount being at least 1) — and nonnegativity of every stored
raised_inr is preserved. -/
theorem C8_raised_never_decreases (st : DB) (op : ApiOp) (hop : opValid op) :
    (∀ cid c, findById st.campaigns cid = some c →
      ∃ c2, findById (applyOp st op).campaigns cid = some c2 ∧
        c.raised_inr ≤ c2.raised_inr ∧
        (c2.raised_inr = c.raised_inr ∨
          ∃ q ∈ (applyOp st op).donations,
            c2.raised_inr = c.raised_inr + q.2.amount_inr ∧ 1 ≤ q.2.amount_inr)) ∧
    (campaignsNonneg st → campaignsNonneg (applyOp st op)) := by
  cases op with
  | readNgos =>
    exact ⟨fun cid c h => ⟨c, h, le_refl _, Or.inl rfl⟩, fun hn => hn⟩
  | readCampaigns d =>
    exact ⟨fun cid c h => ⟨c, h, le_refl _, Or.inl rfl⟩, fun hn => hn⟩
  | readDonations =>
    exact ⟨fun cid c h => ⟨c, h, le_refl _, Or.inl rfl⟩, fun hn => hn⟩
  | readLedger m =>
    exact ⟨fun cid c h => ⟨c, h, le_refl _, Or.inl rfl⟩, fun hn => hn⟩
  | readLeaderboard =>
    exact ⟨fun cid c h => ⟨c, h, le_refl _, Or.inl rfl⟩, fun hn => hn⟩
  | addNgo n0 =>
    exact ⟨fun cid c h => ⟨c, h, le_refl _, Or.inl rfl⟩, fun hn => hn⟩
  | seedDemo =>
    constructor
    · intro cid c h
      refine ⟨c, ?_, le_refl _, Or.inl rfl⟩
      cases hng : st.ngos with
      | cons a rest =>
        simp only [applyOp, seedOp, hng]
        exact h
      | nil =>
        simp only [applyOp, seedOp, hng]
        exact findById_append_left h
    · intro hn q hq
      cases hng : st.ngos with
      | cons a rest =>
        simp only [applyOp, seedOp, hng] at hq
        exact hn q hq
      | nil =>
        simp only [applyOp, seedOp, hng] at hq
        rcases List.mem_append.1 hq with hq | hq
        · exact hn q hq
        · simp only [List.mem_cons, List.mem_singleton] at hq
          rcases hq with hq | hq | hq | hq
          · rw [hq]; simp [Campaign.toDoc]
          · rw [hq]; simp [Campaign.toDoc]
          · rw [hq]; simp [Campaign.toDoc]
          · simp at hq
    | addCampaign c0 =>
    constructor
    · intro cid c h
      refine ⟨c, ?_, le_refl _, Or.inl rfl⟩
      cases hcn : c0.ngo_id with
      | malformed s =>
        simp only [applyOp, createCampaign, hcn]
        exact h
      | valid nid =>
        cases hfind : findById st.ngos nid with
        | none =>
          simp only [applyOp, createCampaign, hcn, hfind]
          exact h
        | some ngo0 =>
          simp only [applyOp, createCampaign, hcn, hfind]
          exact findById_append_left h
    · intro hn q hq
      cases hcn : c0.ngo_id with
      | malformed s =>
        simp only [applyOp, createCampaign, hcn] at hq
        exact hn q hq
      | valid nid =>
        cases hfind : findById st.ngos nid with
        | none =>
          simp only [applyOp, createCampaign, hcn, hfind] at hq
          exact hn q hq
        | some ngo0 =>
          simp only [applyOp, createCampaign, hcn, hfind] at hq
          rcases List.mem_append.1 hq with hq | hq
          · exact hn q hq
          · rw [List.mem_singleton] at hq
            rw [hq]
            simpa [Campaign.toDoc] using hop.2
  | donate p0 now =>
    rcases createDonation_state_cases st p0 now with hsame | ⟨cid0, hcid, ha, hst⟩
    · constructor
      · intro cid c h
        refine ⟨c, ?_, le_refl _, Or.inl rfl⟩
        simp only [applyOp]
        rw [hsame]
        exact h
      · intro hn
        unfold campaignsNonneg
        simp only [applyOp]
        rw [hsame]
        exact hn
    · constructor
      · intro cid c h
        simp only [applyOp]
        rw [hst]
        simp only
        rw [findById_updateById]
        by_cases hc0 : cid = cid0
        · rw [if_pos hc0, h]
          refine ⟨_, rfl, ?_, ?_⟩
          · simp only [Option.map_some]
            exact le_add_of_nonneg_right (le_trans zero_le_one ha)
          · right
            refine ⟨(st.nextId, ⟨OId.valid cid0, p0.donor_name, p0.amount_inr, p0.payment_method⟩), ?_, rfl, ha⟩
            simp [hst]
        · rw [if_neg hc0]
          exact ⟨c, h, le_refl _, Or.inl rfl⟩
      · intro hn
        unfold campaignsNonneg
        simp only [applyOp]
        rw [hst]
        simp only
        intro q hq
        exact mem_updateById_imp (fun v : CampaignDoc => (0 : Int) ≤ v.raised_inr)
          (fun r hr => hn r hr)
          (fun v hv => add_nonneg hv (le_trans zero_le_one ha)) q hq

/-- Witness for C8: the donate operation pC8 against exC8. -/
theorem C8_witness :
    opValid (ApiOp.donate pC8 0) ∧
    findById exC8.campaigns 2 = some cC8 ∧
    (∃ c2, findById (applyOp exC8 (ApiOp.donate pC8 0)).campaigns 2 = some c2 ∧
        cC8.raised_inr ≤ c2.raised_inr ∧
        (c2.raised_inr = cC8.raised_inr ∨
          ∃ q ∈ (applyOp exC8 (ApiOp.donate pC8 0)).donations,
            c2.raised_inr = cC8.raised_inr + q.2.amount_inr ∧ 1 ≤ q.2.amount_inr)) ∧
    (campaignsNonneg exC8 → campaignsNonneg (applyOp exC8 (ApiOp.donate pC8 0))) :=
  ⟨trivial, by decide,
   (C8_raised_never_decreases exC8 (ApiOp.donate pC8 0) trivial).1 2 cC8 (by decide),
   (C8_raised_never_decreases exC8 (ApiOp.donate pC8 0) trivial).2⟩

/-- C9: POST /api/seed does nothing when the ngo collection is already
non-empty, and running seed twice always leaves the store exactly as
running it once does. -/
theorem C9_seed_idempotent (st : DB) :
    (st.ngos ≠ [] → seedOp st = st) ∧ seedOp (seedOp st) = seedOp st := by
  have hid : ∀ s : DB, s.ngos ≠ [] → seedOp s = s := by
    intro s hs
    cases hng : s.ngos with
    | nil => exact absurd hng hs
    | cons a rest => simp [seedOp, hng]
  constructor
  · intro h
    exact hid st h
  · by_cases hng : st.ngos = []
    · have h2 : (seedOp st).ngos ≠ [] := by
        simp [seedOp, hng]
      exact hid _ h2
    · rw [hid st hng]
      exact hid st hng

/-- Witness for C9 at the already-seeded store exC9. -/
theorem C9_witness :
    exC9.ngos ≠ [] ∧ seedOp exC9 = exC9 ∧ seedOp (seedOp exC9) = seedOp exC9 :=
  ⟨by decide, (C9_seed_idempotent exC9).1 (by decide), (C9_seed_idempotent exC9).2⟩

/-- C10: GET /api/transactions with limit exactly 0 returns every stored
transaction, newest first, because items[-0:] slices the whole list. -/
theorem C10_limit_zero_returns_everything (st : DB) :
    listTransactions st 0 = (st.transactions.map (ledgerRow st)).reverse := by
  unfold listTransactions sliceFromNeg
  rw [if_neg (lt_irrefl (0 : Int))]
  simp [List.map_reverse]

/-- C4 counterexample: in exC4 a single NGO owns two campaigns, each with
one 50 INR donation. The leaderboard emits that NGO with eco_points 0
(each campaign contributes 50 // 100 = 0), while the claim's NGO-wide
formula floor((50 + 50) / 100) gives 1 — so the claim's equality fails for
this NGO appearing in the response. -/
theorem C4_counterexample :
    leaderboardOp exC4 = [⟨"Green Earth Trust", 0⟩] ∧
    ngoDisplayName exC4 (OId.valid 1) = "Green Earth Trust" ∧
    specEcoPoints exC4 (OId.valid 1) = 1 := by decide

/-- C4 (amended): in a store whose campaign ids are distinct, every entry
of the leaderboard points mapping credits its NGO with the SUM over that
NGO's campaigns of floor(per-campaign donation total / 100) — the floor is
taken per campaign before summing, not over the NGO-wide total — and the
corresponding row appears in the GET /api/leaderboard response. -/
theorem C4_leaderboard_points_per_campaign (st : DB)
    (hnd : (st.campaigns.map Prod.fst).Nodup) :
    ∀ q ∈ leaderboardPoints st,
      q.2 = ngoPointsSpec st q.1 ∧
      LeaderboardItem.mk (ngoDisplayName st q.1) q.2 ∈ leaderboardOp st := by
  intro q hq
  constructor
  · have h0 : ((leaderboardPoints st).map Prod.fst).Nodup := by
      unfold leaderboardPoints
      exact nodup_keys_foldl st _ [] (by simp)
    have h1 : lookupPts (leaderboardPoints st) q.1 = q.2 :=
      lookupPts_of_mem_nodup h0 hq
    rw [← h1, lookupPts_leaderboardPoints, sum_rowDelta_agg,
      sum_aggDelta_eq_ngoPointsSpec st _ hnd]
  · unfold leaderboardOp
    apply List.mem_map_of_mem
    exact ((List.perm_insertionSort _ _).mem_iff).2 hq

/-- Witness for C4 (amended) at exC4: the single accumulated entry is
(NGO 1, 0 points) and 0 is indeed the per-campaign-floored total. -/
theorem C4_witness :
    (exC4.campaigns.map Prod.fst).Nodup ∧
    (OId.valid 1, (0 : Int)) ∈ leaderboardPoints exC4 ∧
    ((0 : Int) = ngoPointsSpec exC4 (OId.valid 1) ∧
      LeaderboardItem.mk (ngoDisplayName exC4 (OId.valid 1)) 0 ∈ leaderboardOp exC4) :=
  ⟨by decide, by decide,
   C4_leaderboard_points_per_campaign exC4 (by decide) (OId.valid 1, 0) (by decide)⟩

/-- C5 counterexample: in exC5 the only NGO has a single 50 INR donation,
so its eco points are zero by both the per-campaign and the NGO-wide
formula — yet GET /api/leaderboard emits it (with eco_points 0), refuting
the claim that such an NGO does not appear. -/
theorem C5_counterexample :
    leaderboardOp exC5 = [⟨"Blue River Trust", 0⟩] ∧
    specEcoPoints exC5 (OId.valid 1) = 0 := by decide

/-- C5 (amended): the GET /api/leaderboard response is sorted in
non-increasing order of eco_points, and every NGO with at least one
donation that resolves to one of its stored campaigns appears — including
NGOs whose accumulated eco_points are 0; there is no positivity filter. -/
theorem C5_leaderboard_sorted_and_complete (st : DB) :
    List.Pairwise (fun a b : LeaderboardItem => b.eco_points ≤ a.eco_points)
      (leaderboardOp st) ∧
    ∀ nid, (∃ p ∈ st.donations,
        ∃ c, findByOId st.campaigns p.2.campaign_id = some c ∧ c.ngo_id = nid) →
      ∃ q ∈ leaderboardPoints st, q.1 = nid ∧
        LeaderboardItem.mk (ngoDisplayName st nid) q.2 ∈ leaderboardOp st := by
  constructor
  · unfold leaderboardOp
    apply List.Pairwise.map (fun q : OId × Int => LeaderboardItem.mk (ngoDisplayName st q.1) q.2)
      (fun a b h => h)
    exact List.sorted_insertionSort _ _
  · intro nid hex
    rcases hex with ⟨p, hp, c, hc, hcn⟩
    have hrow : (p.2.campaign_id, donationSum st.donations p.2.campaign_id) ∈
        aggregateDonations st.donations := by
      unfold aggregateDonations
      apply List.mem_map_of_mem
      rw [mem_firstKeys]
      exact List.mem_map_of_mem _ hp
    have hkey : hasKey (leaderboardPoints st) nid = true := by
      unfold leaderboardPoints
      exact hasKey_foldl_of_row st _ [] nid _ hrow ⟨c, hc, hcn⟩
    rcases hasKey_exists_mem hkey with ⟨q, hq, hqn⟩
    refine ⟨q, hq, hqn, ?_⟩
    rw [← hqn]
    unfold leaderboardOp
    apply List.mem_map_of_mem
    exact ((List.perm_insertionSort _ _).mem_iff).2 hq

/-- Witness for C5 (amended) at exC5: NGO 1 has a resolving donation and
indeed appears. -/
theorem C5_witness :
    List.Pairwise (fun a b : LeaderboardItem => b.eco_points ≤ a.eco_points)
      (leaderboardOp exC5) ∧
    (∃ p ∈ exC5.donations,
        ∃ c, findByOId exC5.campaigns p.2.campaign_id = some c ∧ c.ngo_id = OId.valid 1) ∧
    (∃ q ∈ leaderboardPoints exC5, q.1 = OId.valid 1 ∧
        LeaderboardItem.mk (ngoDisplayName exC5 (OId.valid 1)) q.2 ∈ leaderboardOp exC5) :=
  ⟨(C5_leaderboard_sorted_and_complete exC5).1, by decide,
   (C5_leaderboard_sorted_and_complete exC5).2 (OId.valid 1) (by decide)⟩

end ParyavaranSahyog
